import Mathlib

/-!
# Grid-X coordinator: a shallow embedding of the core in Lean 4

This file embeds the parts of the Grid-X coordinator (Python sources under
`src/coordinator` and `src/common`) that the specification's claims are about:

* the time-based credit engine (`src/coordinator/credit_manager.py`),
* the durable store operations (`src/coordinator/database.py`),
* the in-memory worker registry (`src/coordinator/workers.py`),
* the worker-session hello/teardown logic (`src/coordinator/websocket.py`),
* the dispatcher loop (`src/coordinator/scheduler.py`),
* the job-submission endpoint (`src/coordinator/main.py`).

Modelling conventions:

* Money and timestamps are rationals (`ℚ`).  The Python code uses IEEE
  doubles; the claims under study are about the arithmetic the code writes
  down (clamping, rounding to 4 decimals, additions of 4-decimal values),
  which is exact at these magnitudes, so `ℚ` is the faithful idealisation.
* `round4` models Python's `round(x, 4)`.  Python rounds halves to even;
  `round4` rounds halves up.  The two agree on every input whose value is
  not an exact odd multiple of `5e-5`; no claim here depends on tie-breaking.
* SQL tables are lists of rows; an `UPDATE ... WHERE` is a `List.map` with
  a guard, an `INSERT` appends, a `SELECT ... fetchone()` is `List.find?`.
  This keeps SQLite's semantics for duplicate keys (every matching row is
  updated) even though primary keys prevent duplicates in practice.
* `time.time()` (`now()` in the sources) is passed in explicitly as a
  parameter `tNow`.
* Freshly generated UUIDs (`uuid.uuid4()`) are passed in as parameters.
* Network sends that may raise are modelled by a boolean oracle `sendOk`.
-/

/-- `GRIDX_COST_PER_SECOND` default `0.1` (credit_manager.py). -/
def COST_PER_SECOND : ℚ := 1/10

/-- `GRIDX_MIN_COST` default `0.05` (credit_manager.py). -/
def MIN_COST : ℚ := 1/20

/-- `GRIDX_MAX_COST` default `25.0` (credit_manager.py). -/
def MAX_COST : ℚ := 25

/-- `GRIDX_REWARD_RATIO` default `0.85` (credit_manager.py). -/
def REWARD_RATIO : ℚ := 17/20

/-- `GRIDX_DEFAULT_JOB_TIMEOUT` default `60` (credit_manager.py). -/
def DEFAULT_JOB_TIMEOUT : Int := 60

/-- `GRIDX_INITIAL_CREDITS` default `100.0` (credit_manager.py). -/
def DEFAULT_INITIAL_BALANCE : ℚ := 100

/-- Python `round(q, 4)`: round to 4 decimal places (see header note on ties). -/
def round4 (q : ℚ) : ℚ := (round (q * 10000) : ℤ) / 10000

/-- ASCII hex digit, as matched by `[0-9a-f]` with `re.IGNORECASE`. -/
def isHexChar (c : Char) : Bool :=
  c.isDigit || ('a' ≤ c && c ≤ 'f') || ('A' ≤ c && c ≤ 'F')

/-- Per-position character check of the UUID-v4 regex in
`common/utils.py` `validate_uuid`:
`^[0-9a-f]{8}-[0-9a-f]{4}-4[0-9a-f]{3}-[89ab][0-9a-f]{3}-[0-9a-f]{12}$`
(case-insensitive). -/
def uuidCharOk (i : Nat) (c : Char) : Bool :=
  if i = 8 ∨ i = 13 ∨ i = 18 ∨ i = 23 then c = '-'
  else if i = 14 then c = '4'
  else if i = 19 then c ∈ ['8', '9', 'a', 'b', 'A', 'B']
  else isHexChar c

/-- `common/utils.py` `validate_uuid`. -/
def validate_uuid (s : String) : Bool :=
  s.length = 36 && s.data.enum.all fun ic => uuidCharOk ic.1 ic.2

/-- Character class `[a-zA-Z0-9_-]` of `common/utils.py` `validate_user_id`. -/
def isUserIdChar (c : Char) : Bool :=
  c.isAlpha || c.isDigit || c = '_' || c = '-'

/-- `common/utils.py` `validate_user_id`: 1–64 chars of `[a-zA-Z0-9_-]`. -/
def validate_user_id (u : String) : Bool :=
  1 ≤ u.length && u.length ≤ 64 && u.data.all isUserIdChar

/-- Approximation of Python `str.isprintable` on the ASCII range; the
sources only pass ASCII identifiers and program text through it. -/
def isPrintableChar (c : Char) : Bool := 32 ≤ c.toNat && c.toNat ≠ 127

/-- `common/utils.py` `sanitize_string`: drop NUL bytes, keep printable
characters plus `\n\r\t`, truncate to `maxLen` characters. -/
def sanitize_string (v : String) (maxLen : Nat) : String :=
  ⟨((v.data.filter fun c => c ≠ '\x00').filter
      fun c => isPrintableChar c || c ∈ ['\n', '\r', '\t']).take maxLen⟩

/-- Python `str.strip()` (ASCII whitespace; the sources only strip ASCII
identifiers).  Structurally recursive on the character list. -/
def pyStrip (s : String) : String :=
  ⟨((s.data.dropWhile Char.isWhitespace).reverse.dropWhile
      Char.isWhitespace).reverse⟩

/-! ## Credit table (`user_credits`) and the credit engine -/

/-- The `user_credits` table: rows `(user_id, balance)`.  `total_earned`,
`total_spent` and `last_updated` are never read by the core and are omitted. -/
abbrev CreditDB := List (String × ℚ)

/-- `SELECT balance FROM user_credits WHERE user_id=?` (first row, if any). -/
def getBal (db : CreditDB) (uid : String) : Option ℚ :=
  (List.find? (fun p => p.1 == uid) db).map Prod.snd

/-- `credit_manager.py` `get_balance`: balance, `0` if the user has no row. -/
def get_balance (db : CreditDB) (uid : String) : ℚ :=
  (getBal db uid).getD 0

/-- `credit_manager.py` `ensure_user`: create the row with `init` balance if
absent; return the (db, current balance).  Call sites pass
`DEFAULT_INITIAL_BALANCE` (the Python default) or `0.0` explicitly. -/
def ensure_user (db : CreditDB) (uid : String) (init : ℚ) : CreditDB × ℚ :=
  match getBal db uid with
  | some b => (db, b)
  | none => (db ++ [(uid, init)], init)

/-- `credit_manager.py` `deduct`:
`UPDATE user_credits SET balance=balance-? WHERE user_id=? AND balance>=?`;
returns `rowcount > 0`.  Non-positive amounts return `true` untouched. -/
def deduct (db : CreditDB) (uid : String) (amount : ℚ) : CreditDB × Bool :=
  if amount ≤ 0 then (db, true)
  else
    (db.map fun p =>
        if p.1 == uid && decide (amount ≤ p.2) then (p.1, p.2 - amount) else p,
      !(db.filter fun p => p.1 == uid && decide (amount ≤ p.2)).isEmpty)

/-- `credit_manager.py` `credit`: no-op on non-positive amounts, else
`ensure_user(uid, 0)` followed by
`UPDATE user_credits SET balance=balance+? WHERE user_id=?`. -/
def credit (db : CreditDB) (uid : String) (amount : ℚ) : CreditDB :=
  if amount ≤ 0 then db
  else
    ((ensure_user db uid 0).1).map fun p =>
      if p.1 == uid then (p.1, p.2 + amount) else p

/-- `credit_manager.py` `compute_cost`: `MIN_COST` on missing/negative
duration, else `duration * COST_PER_SECOND` rounded to 4 decimals and
clamped to `[MIN_COST, MAX_COST]`. -/
def compute_cost (duration : Option ℚ) : ℚ :=
  match duration with
  | none => MIN_COST
  | some d =>
    if d < 0 then MIN_COST
    else max MIN_COST (min MAX_COST (round4 (d * COST_PER_SECOND)))

/-- `credit_manager.py` `compute_reward`: `0` on non-positive cost, else
`actual_cost * REWARD_RATIO` rounded to 4 decimals. -/
def compute_reward (actual_cost : ℚ) : ℚ :=
  if actual_cost ≤ 0 then 0 else round4 (actual_cost * REWARD_RATIO)

/-- `credit_manager.py` `get_max_reserve`: substitute the default timeout
when absent or non-positive, then `timeout * COST_PER_SECOND` rounded to 4
decimals and clamped to `[MIN_COST, MAX_COST]`. -/
def get_max_reserve (timeout_seconds : Option Int) : ℚ :=
  let t := timeout_seconds.getD DEFAULT_JOB_TIMEOUT
  let t := if t ≤ 0 then DEFAULT_JOB_TIMEOUT else t
  min MAX_COST (max MIN_COST (round4 ((t : ℚ) * COST_PER_SECOND)))

/-! ## Data model: jobs, workers, user auth, the Store -/

/-- The per-job `limits` JSON blob; the core only writes/reads `timeout_s`. -/
structure JobLimits where
  timeout_s : Int
deriving DecidableEq

/-- A row of the `jobs` table (`database.py` `init_db`). -/
structure Job where
  id : String
  user_id : String
  code : String
  language : String
  status : String
  worker_id : Option String
  created_at : Option ℚ
  started_at : Option ℚ
  completed_at : Option ℚ
  stdout : String
  stderr : String
  exit_code : Option Int
  limits : JobLimits
  cost : ℚ
  duration_seconds : Option ℚ
deriving DecidableEq

/-- Worker capabilities; the core only reads `can_execute` (default true). -/
structure Caps where
  can_execute : Option Bool := none
deriving DecidableEq

/-- A row of the `workers` table.  `credits_earned` is never read or
written by the core and is omitted. -/
structure Worker where
  id : String
  owner_id : String
  ip : String
  caps : Caps
  status : String
  auth_token : Option String
  last_heartbeat : Option ℚ
  registered_at : Option ℚ
  jobs_completed : Int
deriving DecidableEq

/-- A row of the `user_auth` table. -/
structure AuthRow where
  user_id : String
  auth_token : String
  created_at : ℚ
deriving DecidableEq

/-- The durable Store: the four tables of `database.py`. -/
structure Store where
  jobs : List Job
  workers : List Worker
  user_credits : CreditDB
  user_auth : List AuthRow
deriving DecidableEq

/-! ## Store operations (`database.py`) -/

/-- `db_get_job`: validate the id, then `SELECT * FROM jobs WHERE id=?`. -/
def db_get_job (jobs : List Job) (job_id : String) : Option Job :=
  if validate_uuid job_id then jobs.find? fun j => j.id == job_id else none

/-- `db_get_worker`: validate the id, then `SELECT * FROM workers WHERE id=?`. -/
def db_get_worker (workers : List Worker) (worker_id : String) : Option Worker :=
  if validate_uuid worker_id then workers.find? fun w => w.id == worker_id
  else none

/-- `db_register_user_auth`: upsert on `user_auth`, updating only
`auth_token` on conflict; rejects empty user id or token. -/
def db_register_user_auth (auth : List AuthRow) (tNow : ℚ)
    (uid tok : String) : List AuthRow :=
  if uid = "" ∨ tok = "" then auth
  else if (auth.find? fun r => r.user_id == uid).isSome then
    auth.map fun r => if r.user_id == uid then { r with auth_token := tok } else r
  else auth ++ [⟨uid, tok, tNow⟩]

/-- `db_verify_user_auth`: the stored token for `uid` equals `tok`. -/
def db_verify_user_auth (auth : List AuthRow) (uid tok : String) : Bool :=
  if uid = "" then false
  else
    match auth.find? fun r => r.user_id == uid with
    | some r => r.auth_token == tok
    | none => false

/-- `db_get_worker_by_auth`:
`SELECT * FROM workers WHERE owner_id=? AND auth_token=?`.  A row whose
`auth_token` is NULL never matches (SQL three-valued equality). -/
def db_get_worker_by_auth (workers : List Worker) (owner tok : String) :
    Option Worker :=
  if owner = "" then none
  else workers.find? fun w => w.owner_id == owner && w.auth_token == some tok

/-- `db_upsert_worker`:
`INSERT ... ON CONFLICT(id) DO UPDATE SET ip, caps, status, last_heartbeat`.
A fresh row gets `auth_token` NULL — the insert column list does not
include it.  If an auth token and owner are supplied, also register the
pair in `user_auth`.  `none` models the `ValueError` raised on an invalid
worker id (the row is not written). -/
def db_upsert_worker (s : Store) (tNow : ℚ) (worker_id ip : String)
    (caps : Caps) (status : String) (owner_id auth_token : String) :
    Option Store :=
  if ¬ validate_uuid worker_id then none
  else
    let workers :=
      if (s.workers.find? fun w => w.id == worker_id).isSome then
        s.workers.map fun w =>
          if w.id == worker_id then
            { w with ip := ip, caps := caps, status := status,
                     last_heartbeat := some tNow }
          else w
      else
        s.workers ++ [{ id := worker_id, owner_id := owner_id, ip := ip,
                        caps := caps, status := status, auth_token := none,
                        last_heartbeat := some tNow,
                        registered_at := some tNow, jobs_completed := 0 }]
    let user_auth :=
      if auth_token ≠ "" ∧ owner_id ≠ "" then
        db_register_user_auth s.user_auth tNow owner_id auth_token
      else s.user_auth
    some { s with workers := workers, user_auth := user_auth }

/-- `db_assign_job_to_worker` — the CAS: inside one transaction, check that
the job is still `queued`; if so set it `running` with this worker and
mark the worker row busy; return the success boolean. -/
def db_assign_job_to_worker (s : Store) (tNow : ℚ) (job_id worker_id : String) :
    Store × Bool :=
  match s.jobs.find? fun j => j.id == job_id with
  | none => (s, false)
  | some j =>
    if j.status ≠ "queued" then (s, false)
    else
      ({ s with
          jobs := s.jobs.map fun j2 =>
            if j2.id == job_id && j2.status == "queued" then
              { j2 with worker_id := some worker_id, status := "running",
                        started_at := some tNow }
            else j2,
          workers := s.workers.map fun w =>
            if w.id == worker_id then { w with status := "busy" } else w },
        true)

/-- `db_set_job_assigned`: compat wrapper; validates both ids then calls
the CAS. -/
def db_set_job_assigned (s : Store) (tNow : ℚ) (job_id worker_id : String) :
    Store × Bool :=
  if validate_uuid job_id && validate_uuid worker_id then
    db_assign_job_to_worker s tNow job_id worker_id
  else (s, false)

/-- `db_complete_job`: atomically set job status (`completed` iff exit 0),
`completed_at`, outputs; on exit 0 additionally increment the worker's
`jobs_completed`; the worker goes idle in either case. -/
def db_complete_job (s : Store) (tNow : ℚ) (job_id worker_id : String)
    (out err : String) (exit_code : Int) : Store :=
  let status := if exit_code = 0 then "completed" else "failed"
  { s with
    jobs := s.jobs.map fun j =>
      if j.id == job_id then
        { j with status := status, completed_at := some tNow, stdout := out,
                 stderr := err, exit_code := some exit_code }
      else j,
    workers :=
      if exit_code = 0 then
        s.workers.map fun w =>
          if w.id == worker_id then
            { w with status := "idle", jobs_completed := w.jobs_completed + 1 }
          else w
      else
        s.workers.map fun w =>
          if w.id == worker_id then { w with status := "idle" } else w }

/-- `db_set_worker_status`: validated status update that also refreshes
`last_heartbeat` (invalid ids are silently ignored). -/
def db_set_worker_status (s : Store) (tNow : ℚ) (worker_id status : String) :
    Store :=
  if validate_uuid worker_id then
    { s with
      workers := s.workers.map fun w =>
        if w.id == worker_id then
          { w with status := status, last_heartbeat := some tNow }
        else w }
  else s

/-- `db_set_worker_offline`: validated status-only update to `offline`. -/
def db_set_worker_offline (s : Store) (worker_id : String) : Store :=
  if validate_uuid worker_id then
    { s with
      workers := s.workers.map fun w =>
        if w.id == worker_id then { w with status := "offline" } else w }
  else s

/-- `db_create_job` (validation aside): the inserted row.  `cost` stores
the reserved credits, floored at 0. -/
def mkNewJob (job_id user_id code language : String) (timeout_s : Int)
    (reserved_cost : ℚ) (tNow : ℚ) : Job :=
  { id := job_id, user_id := user_id, code := code, language := language,
    status := "queued", worker_id := none, created_at := some tNow,
    started_at := none, completed_at := none, stdout := "", stderr := "",
    exit_code := none, limits := ⟨timeout_s⟩,
    cost := max 0 reserved_cost, duration_seconds := none }

/-! ## In-memory worker registry (`workers.py`) -/

/-- One `workers_ws` entry: `{ws, caps, status, last_seen, owner_id}`.
Presence of the entry models presence of the live websocket handle. -/
structure RegEntry where
  caps : Caps
  status : String
  last_seen : ℚ
  owner_id : String
deriving DecidableEq

/-- The `workers_ws` dict; a list keeps Python's insertion order. -/
abbrev Registry := List (String × RegEntry)

/-- `register_worker_ws`: dict assignment — replace in place if the key
exists (keeping its position), else append. -/
def register_worker_ws (reg : Registry) (tNow : ℚ) (worker_id : String)
    (caps : Caps) (owner_id : String) : Registry :=
  let e : RegEntry := ⟨caps, "idle", tNow, owner_id⟩
  if (reg.find? fun p => p.1 == worker_id).isSome then
    reg.map fun p => if p.1 == worker_id then (p.1, e) else p
  else reg ++ [(worker_id, e)]

/-- `unregister_worker_ws`: `workers_ws.pop(worker_id, None)`. -/
def unregister_worker_ws (reg : Registry) (worker_id : String) : Registry :=
  reg.filter fun p => !(p.1 == worker_id)

/-- `get_worker_ws`: whether a live session handle exists for the id. -/
def get_worker_ws (reg : Registry) (worker_id : String) : Bool :=
  (reg.find? fun p => p.1 == worker_id).isSome

/-- `set_worker_busy`: status to `busy`, `last_seen` refreshed (no-op when
the id is absent). -/
def set_worker_busy (reg : Registry) (tNow : ℚ) (worker_id : String) :
    Registry :=
  reg.map fun p =>
    if p.1 == worker_id then
      (p.1, { p.2 with status := "busy", last_seen := tNow })
    else p

/-- `set_worker_idle`: status to `idle`, `last_seen` refreshed. -/
def set_worker_idle (reg : Registry) (tNow : ℚ) (worker_id : String) :
    Registry :=
  reg.map fun p =>
    if p.1 == worker_id then
      (p.1, { p.2 with status := "idle", last_seen := tNow })
    else p

/-- `get_idle_worker_id`: first (insertion-ordered) entry that is not
excluded by owner, has status `idle` and `can_execute` (default true). -/
def get_idle_worker_id (reg : Registry) (exclude_owner : String) :
    Option String :=
  (reg.find? fun p =>
      !(exclude_owner ≠ "" && p.2.owner_id ≠ "" &&
        p.2.owner_id == exclude_owner) &&
      p.2.status == "idle" && p.2.caps.can_execute.getD true).map Prod.fst

/-! ## Settlement (`credit_manager.py` `settle_job`) -/

/-- `settle_job`: read the job row; fall back to `MAX_COST` when the stored
reserve is zero or negative; refund the unused reserve to the submitter
when positive and the submitter id is non-empty; pay the worker owner the
reward when positive and the (stripped) owner id is non-empty; persist the
actual cost and the duration (0.0 when missing) on the job row. -/
def settle_job (s : Store) (job_id : String) (worker_owner_id : Option String)
    (duration_seconds : Option ℚ) : Store :=
  match db_get_job s.jobs job_id with
  | none => s
  | some job =>
    let user_id := pyStrip job.user_id
    let reserved := if job.cost ≤ 0 then MAX_COST else job.cost
    let actual_cost := compute_cost duration_seconds
    let refund := max 0 (reserved - actual_cost)
    let reward := compute_reward actual_cost
    let credits1 :=
      if 0 < refund ∧ user_id ≠ "" then credit s.user_credits user_id refund
      else s.user_credits
    let owner_id := pyStrip (worker_owner_id.getD "")
    let credits2 :=
      if 0 < reward ∧ owner_id ≠ "" then credit credits1 owner_id reward
      else credits1
    { s with
      user_credits := credits2,
      jobs := s.jobs.map fun j =>
        if j.id == job_id then
          { j with duration_seconds := some (duration_seconds.getD 0),
                   cost := actual_cost }
        else j }

/-! ## Worker session: hello and teardown (`websocket.py` `handle_worker`) -/

/-- What the hello branch does with the connection after updating state. -/
inductive HelloOutcome where
  /-- `hello_ack` sent with the canonical worker id. -/
  | ack (worker_id : String)
  /-- `auth_error` sent, then the socket closed with the given code. -/
  | authError (closeCode : Nat)
  /-- an exception (invalid worker id at `db_upsert_worker`) aborted the
  handler before `hello_ack`. -/
  | err
deriving DecidableEq

/-- The `hello` branch of `handle_worker`.  `incoming_raw` is the
`worker_id` field of the message (`""` when absent), `fresh` the UUID
generated for `str(uuid.uuid4())`; `owner_id`/`auth_token` are the message
fields defaulted to `""`.  The subsequent `dispatch()` call is modelled
separately (see `dispatchLoop`). -/
def handle_hello (s : Store) (reg : Registry) (tNow : ℚ)
    (incoming_raw fresh : String) (caps : Caps) (owner_id auth_token ip : String) :
    Store × Registry × HelloOutcome :=
  let incoming_worker_id := if incoming_raw = "" then fresh else incoming_raw
  let accept := fun (wid : String) =>
    let reg2 := register_worker_ws reg tNow wid caps owner_id
    match db_upsert_worker s tNow wid ip caps "idle" owner_id auth_token with
    | none => (s, reg2, HelloOutcome.err)
    | some s2 => (s2, reg2, HelloOutcome.ack wid)
  if auth_token ≠ "" ∧ owner_id ≠ "" then
    if db_verify_user_auth s.user_auth owner_id auth_token then
      match db_get_worker_by_auth s.workers owner_id auth_token with
      | some w => accept w.id
      | none => accept incoming_worker_id
    else if (s.user_auth.find? fun r => r.user_id == owner_id).isSome then
      (s, reg, HelloOutcome.authError 4401)
    else accept incoming_worker_id
  else accept incoming_worker_id

/-- Teardown of a session that completed hello (`handle_worker` cleanup):
unregister from the registry, set the worker row offline, and for every
job in status `running` with this worker id, reset it to `queued` with the
worker id cleared and re-enqueue its id on the FIFO. -/
def handle_disconnect (s : Store) (reg : Registry) (queue : List String)
    (worker_id : String) : Store × Registry × List String :=
  let reg2 := unregister_worker_ws reg worker_id
  let s1 := db_set_worker_offline s worker_id
  let ids := (s1.jobs.filter fun j =>
      j.status == "running" && j.worker_id == some worker_id).map Job.id
  let s2 := { s1 with
    jobs := s1.jobs.map fun j =>
      if ids.contains j.id then
        { j with status := "queued", worker_id := none }
      else j }
  (s2, reg2, queue ++ ids)

/-! ## Dispatcher (`scheduler.py` `dispatch`) -/

/-- The `limits` object of an `assign_job` message. -/
structure MsgLimits where
  cpus : Int
  memory : String
  timeout_s : Int
deriving DecidableEq

/-- An `assign_job` message body. -/
structure AssignMsg where
  job_id : String
  kind : String
  script : String
  limits : MsgLimits
deriving DecidableEq

/-- The `assign_job` message `dispatch` builds for a job: the limits are
the literal constants of `scheduler.py` lines 133–137. -/
def mkAssignMsg (job_id : String) (job : Job) : AssignMsg :=
  { job_id := job_id,
    kind := if job.language = "" then "python" else job.language,
    script := job.code,
    limits := { cpus := 1, memory := "256m", timeout_s := 30 } }

/-- The `dispatch()` while-loop.  State: FIFO of job ids, Store, Registry,
and the list of `assign_job` messages successfully sent so far (pairs of
worker id and message).  `sendOk` tells whether `ws.send` succeeds for a
worker.  Termination: each iteration either returns or recurses on the
tail of the queue. -/
def dispatchLoop (tNow : ℚ) (sendOk : String → Bool) :
    List String → Store → Registry → List (String × AssignMsg) →
    List String × Store × Registry × List (String × AssignMsg)
  | [], s, reg, sends => ([], s, reg, sends)
  | job_id :: rest, s, reg, sends =>
    match db_get_job s.jobs job_id with
    | none => dispatchLoop tNow sendOk rest s reg sends
    | some job =>
      let owner_to_exclude := pyStrip job.user_id
      match get_idle_worker_id reg owner_to_exclude with
      | none => (rest ++ [job_id], s, reg, sends)
      | some idle_id =>
        let reg1 := set_worker_busy reg tNow idle_id
        let s1 := db_set_worker_status s tNow idle_id "busy"
        -- the CAS result is computed and DISCARDED by the source
        let s2 := (db_set_job_assigned s1 tNow job_id idle_id).1
        let msg := mkAssignMsg job_id job
        if get_worker_ws reg1 idle_id then
          if sendOk idle_id then
            dispatchLoop tNow sendOk rest s2 reg1 (sends ++ [(idle_id, msg)])
          else
            let reg2 := set_worker_idle reg1 tNow idle_id
            let s3 := db_set_worker_status s2 tNow idle_id "idle"
            let s4 := { s3 with
              jobs := s3.jobs.map fun j =>
                if j.id == job_id then
                  { j with status := "queued", worker_id := none }
                else j }
            (rest ++ [job_id], s4, reg2, sends)
        else
          let reg2 := set_worker_idle reg1 tNow idle_id
          let s3 := db_set_worker_status s2 tNow idle_id "idle"
          let s4 := { s3 with
            jobs := s3.jobs.map fun j =>
              if j.id == job_id then
                { j with status := "queued", worker_id := none }
              else j }
          (rest ++ [job_id], s4, reg2, sends)

/-! ## Job submission (`main.py` `submit_job`) -/

/-- Outcome of `POST /jobs`: the success body, or the `HTTPException`
status code (the human-readable detail string is not modelled). -/
inductive SubmitResult where
  | ok (job_id : String) (status : String) (reserved : ℚ)
  | httpError (code : Int)
deriving DecidableEq

/-- The request body of `POST /jobs` as the handler reads it: `none`
models an absent key; `timeout_s` is `body["limits"]["timeout_s"]`. -/
structure SubmitBody where
  user_id : Option String := none
  code : Option String := none
  language : Option String := none
  timeout_s : Option Int := none
deriving DecidableEq

/-- The error reply of `POST /jobs`: an `HTTPException` is raised, the
handler returns without enqueuing or dispatching anything. -/
def submitErr (s : Store) (reg : Registry) (queue : List String)
    (code : Int) :
    (List String × Store × Registry × List (String × AssignMsg))
      × SubmitResult :=
  ((queue, s, reg, []), SubmitResult.httpError code)

/-- `main.py` `submit_job`, credit handling and job creation (lines
201–247), reached once the inputs validated: reserve
`get_max_reserve(timeout)` from the submitter, create the job row,
enqueue it and run the dispatcher.  `fresh_job_id` stands for
`generate_job_id()`.  A duplicate or invalid generated id makes
`db_create_job` raise, which refunds the reserve and returns 500. -/
def submit_job_reserve (s : Store) (reg : Registry) (queue : List String)
    (tNow : ℚ) (sendOk : String → Bool) (fresh_job_id : String)
    (code user_id language : String) (timeout_seconds : Int) :
    (List String × Store × Registry × List (String × AssignMsg))
      × SubmitResult :=
  let reserved := get_max_reserve (some timeout_seconds)
  let s := { s with
    user_credits :=
      (ensure_user s.user_credits user_id DEFAULT_INITIAL_BALANCE).1 }
  let current_balance := get_balance s.user_credits user_id
  if current_balance < reserved then submitErr s reg queue 402
  else
    let dres := deduct s.user_credits user_id reserved
    let s := { s with user_credits := dres.1 }
    if ¬ dres.2 then submitErr s reg queue 402
    else if ¬ validate_uuid fresh_job_id ∨
        (s.jobs.find? fun j => j.id == fresh_job_id).isSome then
      submitErr { s with
          user_credits := credit s.user_credits user_id reserved }
        reg queue 500
    else
      let job := mkNewJob fresh_job_id user_id code language
        timeout_seconds reserved tNow
      let s := { s with jobs := s.jobs ++ [job] }
      let queue := queue ++ [fresh_job_id]
      (dispatchLoop tNow sendOk queue s reg [],
        SubmitResult.ok fresh_job_id "queued" reserved)

/-- `main.py` `submit_job`, the input-validation prefix (lines 172–199):
code present, non-empty and ≤ 1 MiB; language supported (default
`python`); `user_id` defaulted to the literal `"demo"` and validated;
`limits.get("timeout_s") or 60` (absent or 0 fall back to 60).  Error
codes: 400 invalid input, 402 insufficient credits, 500 creation
failure. -/
def submit_job (s : Store) (reg : Registry) (queue : List String) (tNow : ℚ)
    (sendOk : String → Bool) (fresh_job_id : String) (body : SubmitBody) :
    (List String × Store × Registry × List (String × AssignMsg))
      × SubmitResult :=
  match body.code with
  | none => submitErr s reg queue 400
  | some code0 =>
    if code0 = "" then submitErr s reg queue 400
    else if 1000000 < code0.length then submitErr s reg queue 400
    else
      let language := body.language.getD "python"
      if language ∉ ["python", "javascript", "node", "bash"] then
        submitErr s reg queue 400
      else
        let user_id0 := body.user_id.getD "demo"
        if ¬ validate_user_id user_id0 then submitErr s reg queue 400
        else
          let timeout_seconds :=
            match body.timeout_s with
            | none => 60
            | some v => if v = 0 then 60 else v
          submit_job_reserve s reg queue tNow sendOk fresh_job_id
            (sanitize_string code0 1000000) (sanitize_string user_id0 64)
            language timeout_seconds

/-- The reserve formula exactly as the specification words it (spec §4.3):
`clamp(timeout_seconds × cost_per_second, min_cost, max_cost)` rounded to 4
decimals, with the default substituted for an absent or non-positive
timeout.  Defined only to be compared with `get_max_reserve`. -/
def max_reserve_spec (timeout_seconds : Option Int) : ℚ :=
  let t := match timeout_seconds with
    | none => DEFAULT_JOB_TIMEOUT
    | some v => if v ≤ 0 then DEFAULT_JOB_TIMEOUT else v
  round4 (max MIN_COST (min MAX_COST ((t : ℚ) * COST_PER_SECOND)))

/-! ## Invariant predicates and concrete example states -/

/-- Every `user_credits` row has a non-negative balance (spec I5). -/
def nonnegDB (db : CreditDB) : Prop := ∀ p ∈ db, 0 ≤ p.2

/-- A concrete UUID accepted by `validate_uuid`, used as a job id. -/
def J1 : String := "11111111-1111-4111-8111-111111111111"

/-- A concrete UUID accepted by `validate_uuid`, used as a worker id. -/
def W1 : String := "22222222-2222-4222-8222-222222222222"

/-- A job row already in status `running` (e.g. a stale duplicate queue
entry), used to exhibit a failing CAS inside `dispatch`. -/
def exRunningJob : Job :=
  { id := J1, user_id := "alice", code := "print(1)", language := "python",
    status := "running", worker_id := some W1, created_at := some 0,
    started_at := some 0, completed_at := none, stdout := "", stderr := "",
    exit_code := none, limits := ⟨60⟩, cost := 6, duration_seconds := none }

/-- An idle worker row owned by `bob`. -/
def exIdleWorker : Worker :=
  { id := W1, owner_id := "bob", ip := "1.2.3.4", caps := {},
    status := "idle", auth_token := none, last_heartbeat := some 0,
    registered_at := some 0, jobs_completed := 0 }

/-- Store for the C3 counterexample: one running job, one idle worker. -/
def exC3Store : Store :=
  { jobs := [exRunningJob], workers := [exIdleWorker],
    user_credits := [("alice", 94), ("bob", 100)], user_auth := [] }

/-- Registry with `bob`'s worker connected and idle. -/
def exIdleReg : Registry :=
  [(W1, { caps := {}, status := "idle", last_seen := 0, owner_id := "bob" })]

/-- A job submitted by `alice` whose reserve 25 was debited, executed by a
worker owned by `alice` herself (owner = submitter). -/
def exC5Job : Job :=
  { id := J1, user_id := "alice", code := "print(1)", language := "python",
    status := "running", worker_id := some W1, created_at := some 0,
    started_at := some 0, completed_at := none, stdout := "", stderr := "",
    exit_code := none, limits := ⟨250⟩, cost := 25, duration_seconds := none }

/-- Store for the C5 counterexample. -/
def exC5Store : Store :=
  { jobs := [exC5Job], workers := [], user_credits := [("alice", 100)],
    user_auth := [] }

/-- A job submitted with timeout 300 s: the row `db_create_job` writes
(reserved cost 25 = `get_max_reserve 300`). -/
def exC6Job : Job := mkNewJob J1 "alice" "print(1)" "python" 300 25 0

/-- Store for the C6 counterexample: that job queued, `bob`'s worker idle,
`alice` already debited the 25-credit reserve. -/
def exC6DispatchStore : Store :=
  { jobs := [exC6Job], workers := [exIdleWorker],
    user_credits := [("alice", 75)], user_auth := [] }

/-- A worker row of `bob` that carries the auth token `"T1"`. -/
def exAuthWorker : Worker :=
  { id := W1, owner_id := "bob", ip := "1.2.3.4", caps := {},
    status := "offline", auth_token := some "T1",
    last_heartbeat := some 0, registered_at := some 0, jobs_completed := 0 }

/-- Store for the C2/C4 witnesses: `bob` registered in `user_auth` with
token `"T1"`, and a worker row carrying that owner and token. -/
def exAuthStore : Store :=
  { jobs := [], workers := [exAuthWorker],
    user_credits := [], user_auth := [⟨"bob", "T1", 0⟩] }

/-- `exIdleWorker`, marked busy. -/
def exBusyWorker : Worker := { exIdleWorker with status := "busy" }

/-- Store for the C8/C9 witnesses: job running on the worker. -/
def exRunStore : Store :=
  { jobs := [exRunningJob], workers := [exBusyWorker],
    user_credits := [], user_auth := [] }

/-- The empty Store (freshly initialised database). -/
def exEmptyStore : Store :=
  { jobs := [], workers := [], user_credits := [], user_auth := [] }

/-! ## Helper lemmas -/

theorem find?_map_pred {α : Type} (p : α → Bool) (u : α → α)
    (hp : ∀ a, p (u a) = p a) (l : List α) :
    (l.map u).find? p = (l.find? p).map u := by
  induction l with
  | nil => rfl
  | cons a t ih =>
    by_cases h : p a
    · rw [List.map_cons, List.find?_cons_of_pos _ (by rw [hp]; exact h),
        List.find?_cons_of_pos _ h]
      rfl
    · rw [List.map_cons, List.find?_cons_of_neg _ (by rw [hp]; simpa using h),
        List.find?_cons_of_neg _ (by simpa using h), ih]

theorem getBal_map_fst_preserving (db : CreditDB) (v : String)
    (u : String × ℚ → String × ℚ) (hu : ∀ p, (u p).1 = p.1) :
    getBal (db.map u) v
      = (List.find? (fun p => p.1 == v) db).map fun p => (u p).2 := by
  unfold getBal
  rw [find?_map_pred (fun p => p.1 == v) u (fun a => by simp only; rw [hu])]
  cases List.find? (fun p => p.1 == v) db <;> rfl

theorem getBal_map_add (db : CreditDB) (u v : String) (a : ℚ) :
    getBal (db.map fun p => if p.1 == u then (p.1, p.2 + a) else p) v
      = (getBal db v).map fun b => if v = u then b + a else b := by
  rw [getBal_map_fst_preserving db v _
    (fun p => by by_cases h : p.1 == u <;> simp [h])]
  unfold getBal
  cases hf : List.find? (fun p => p.1 == v) db with
  | none => rfl
  | some q =>
    have hq : q.1 = v := by
      have := List.find?_some hf
      simpa [beq_iff_eq] using this
    by_cases hv : v = u
    · simp [hq, hv]
    · simp [hq, hv]

theorem getBal_append_single (db : CreditDB) (u v : String) (c : ℚ) :
    getBal (db ++ [(u, c)]) v
      = (getBal db v).or (if v = u then some c else none) := by
  unfold getBal
  rw [List.find?_append]
  cases hf : List.find? (fun p => p.1 == v) db with
  | none =>
    by_cases hv : v = u
    · subst hv; simp [List.find?]
    · have : (u == v) = false := by
        simpa [beq_iff_eq] using fun h => hv h.symm
      simp [List.find?, this, hv]
  | some q => simp

theorem get_balance_credit (db : CreditDB) (u v : String) (a : ℚ) :
    get_balance (credit db u a) v
      = get_balance db v + (if v = u ∧ 0 < a then a else 0) := by
  unfold credit
  by_cases ha : a ≤ 0
  · have : ¬ (v = u ∧ 0 < a) := fun h => absurd h.2 (not_lt.mpr ha)
    simp [ha, this]
  · have ha' : 0 < a := lt_of_not_le ha
    rw [if_neg ha]
    unfold ensure_user
    cases hb : getBal db u with
    | some b =>
      simp only
      unfold get_balance
      rw [getBal_map_add]
      cases hv : getBal db v with
      | none =>
        have : ¬ (v = u ∧ 0 < a) := by
          rintro ⟨rfl, -⟩; rw [hb] at hv; exact Option.noConfusion hv
        simp [this]
      | some c =>
        by_cases hvu : v = u
        · simp [hvu, ha']
        · simp [hvu]
    | none =>
      simp only
      unfold get_balance
      rw [getBal_map_add, getBal_append_single]
      cases hv : getBal db v with
      | none =>
        by_cases hvu : v = u
        · simp [hvu, ha']
        · simp [hvu]
      | some c =>
        by_cases hvu : v = u
        · subst hvu; rw [hb] at hv; exact Option.noConfusion hv
        · simp [hvu]

theorem deduct_false_unchanged (db : CreditDB) (u : String) (a : ℚ)
    (h : (deduct db u a).2 = false) : (deduct db u a).1 = db := by
  unfold deduct at h ⊢
  by_cases ha : a ≤ 0
  · simp [ha] at h
  · rw [if_neg ha] at h ⊢
    have h2 : (db.filter fun p => p.1 == u && decide (a ≤ p.2)) = [] := by
      simpa [List.isEmpty_iff] using h
    have h3 := List.filter_eq_nil_iff.mp h2
    dsimp only
    have : ∀ p ∈ db,
        (if p.1 == u && decide (a ≤ p.2) then (p.1, p.2 - a) else p) = p :=
      fun p hp => if_neg (by simpa using h3 p hp)
    rw [List.map_congr_left this, List.map_id']

theorem deduct_true_iff (db : CreditDB) (u : String) (a : ℚ) (ha : 0 < a) :
    (deduct db u a).2 = true ↔ ∃ p ∈ db, p.1 = u ∧ a ≤ p.2 := by
  unfold deduct
  rw [if_neg (not_le.mpr ha)]
  simp only [Bool.not_eq_true', List.isEmpty_eq_false_iff_exists_mem,
    List.mem_filter]
  constructor
  · rintro ⟨p, hp, hcond⟩
    exact ⟨p, hp, by simpa [beq_iff_eq] using hcond⟩
  · rintro ⟨p, hp, h1, h2⟩
    exact ⟨p, ⟨hp, by simp [beq_iff_eq, h1, h2]⟩⟩

theorem deduct_getBal (db : CreditDB) (u : String) (a b : ℚ)
    (hb : getBal db u = some b) (hab : a ≤ b) (ha : 0 < a) :
    getBal (deduct db u a).1 u = some (b - a) := by
  unfold deduct
  rw [if_neg (not_le.mpr ha)]
  simp only
  rw [getBal_map_fst_preserving db u _
    (fun p => by by_cases h1 : p.1 == u && decide (a ≤ p.2) <;> simp [h1])]
  unfold getBal at hb
  cases hf : List.find? (fun p => p.1 == u) db with
  | none => rw [hf] at hb; exact absurd hb (by simp)
  | some q =>
    rw [hf] at hb
    have hq2 : q.2 = b := by simpa using hb
    have hq1 : q.1 = u := by simpa using List.find?_some hf
    simp [hq1, hq2, hab]

theorem nonnegDB_ensure (db : CreditDB) (u : String) (i : ℚ) (hi : 0 ≤ i)
    (h : nonnegDB db) : nonnegDB (ensure_user db u i).1 := by
  unfold ensure_user
  cases getBal db u with
  | some b => exact h
  | none =>
    intro p hp
    rcases List.mem_append.mp hp with hp | hp
    · exact h p hp
    · simp only [List.mem_singleton] at hp
      subst hp; exact hi

theorem nonnegDB_deduct (db : CreditDB) (u : String) (a : ℚ)
    (h : nonnegDB db) : nonnegDB (deduct db u a).1 := by
  unfold deduct
  by_cases ha : a ≤ 0
  · simpa [ha] using h
  · rw [if_neg ha]
    intro p hp
    simp only [List.mem_map] at hp
    obtain ⟨q, hq, rfl⟩ := hp
    by_cases hc : q.1 == u && decide (a ≤ q.2)
    · have : a ≤ q.2 := by simpa using (Bool.and_elim_right hc)
      simp only [hc, if_true]
      exact sub_nonneg.mpr this
    · simp only [hc, if_false]
      exact h q hq

theorem nonnegDB_credit (db : CreditDB) (u : String) (a : ℚ)
    (h : nonnegDB db) : nonnegDB (credit db u a) := by
  unfold credit
  by_cases ha : a ≤ 0
  · simpa [ha] using h
  · rw [if_neg ha]
    have h0 : nonnegDB (ensure_user db u 0).1 :=
      nonnegDB_ensure db u 0 le_rfl h
    intro p hp
    simp only [List.mem_map] at hp
    obtain ⟨q, hq, rfl⟩ := hp
    by_cases hc : q.1 == u
    · simp only [hc, if_true]
      exact add_nonneg (h0 q hq) (le_of_lt (lt_of_not_le ha))
    · simp only [hc, if_false]
      exact h0 q hq

theorem getBal_credit_mono (db : CreditDB) (u v : String) (a b : ℚ)
    (hb : getBal db v = some b) :
    ∃ c, getBal (credit db u a) v = some c ∧ b ≤ c := by
  unfold credit
  by_cases ha : a ≤ 0
  · exact ⟨b, by simp [ha, hb], le_rfl⟩
  · have ha' : 0 < a := lt_of_not_le ha
    rw [if_neg ha]
    unfold ensure_user
    cases hu : getBal db u with
    | some c =>
      simp only
      rw [getBal_map_add, hb]
      refine ⟨if v = u then b + a else b, rfl, ?_⟩
      by_cases hv : v = u <;> simp [hv, le_of_lt ha']
    | none =>
      simp only
      rw [getBal_map_add, getBal_append_single, hb]
      have hv : v ≠ u := by rintro rfl; rw [hb] at hu; exact Option.noConfusion hu
      exact ⟨b, by simp [hv], le_rfl⟩

/-! ## C1 — balances never go negative; deduct/credit semantics -/

/-- **C1.** Starting from creation with a non-negative initial balance,
every operation of the credit engine preserves non-negativity of all
stored balances; `deduct` succeeds exactly when some stored row for the
user has balance ≥ amount, performs the debit in that case, and leaves
the table unchanged when it reports failure; `credit` only ever increases
a balance and ignores non-positive amounts. -/
theorem C1_balance_nonneg (db : CreditDB) (u v : String) (a init : ℚ)
    (hdb : nonnegDB db) (ha : 0 < a) (hinit : 0 ≤ init) :
    nonnegDB (ensure_user db u init).1
    ∧ nonnegDB (deduct db u a).1
    ∧ ((deduct db u a).2 = true ↔ ∃ p ∈ db, p.1 = u ∧ a ≤ p.2)
    ∧ ((deduct db u a).2 = false → (deduct db u a).1 = db)
    ∧ (∀ b, getBal db u = some b → a ≤ b →
        getBal (deduct db u a).1 u = some (b - a))
    ∧ nonnegDB (credit db u a)
    ∧ (∀ b, getBal db v = some b →
        ∃ c, getBal (credit db u a) v = some c ∧ b ≤ c)
    ∧ (∀ a2 : ℚ, a2 ≤ 0 → credit db u a2 = db ∧ (deduct db u a2).2 = true) :=
  ⟨nonnegDB_ensure db u init hinit hdb,
   nonnegDB_deduct db u a hdb,
   deduct_true_iff db u a ha,
   deduct_false_unchanged db u a,
   fun b hb hab => deduct_getBal db u a b hb hab ha,
   nonnegDB_credit db u a hdb,
   fun b hb => getBal_credit_mono db u v a b hb,
   fun a2 ha2 => ⟨by simp [credit, ha2], by simp [deduct, ha2]⟩⟩

/-- Witness for C1 at the concrete table `[("alice", 5)]`, amount 3,
initial balance 100. -/
theorem C1_balance_nonneg_witness :
    nonnegDB [("alice", (5 : ℚ))] ∧ (0 : ℚ) < 3 ∧ (0 : ℚ) ≤ 100 ∧
    (nonnegDB (ensure_user [("alice", (5 : ℚ))] "alice" 100).1
     ∧ nonnegDB (deduct [("alice", (5 : ℚ))] "alice" 3).1
     ∧ ((deduct [("alice", (5 : ℚ))] "alice" 3).2 = true ↔
        ∃ p ∈ [("alice", (5 : ℚ))], p.1 = "alice" ∧ 3 ≤ p.2)
     ∧ ((deduct [("alice", (5 : ℚ))] "alice" 3).2 = false →
        (deduct [("alice", (5 : ℚ))] "alice" 3).1 = [("alice", (5 : ℚ))])
     ∧ (∀ b, getBal [("alice", (5 : ℚ))] "alice" = some b → 3 ≤ b →
        getBal (deduct [("alice", (5 : ℚ))] "alice" 3).1 "alice" = some (b - 3))
     ∧ nonnegDB (credit [("alice", (5 : ℚ))] "alice" 3)
     ∧ (∀ b, getBal [("alice", (5 : ℚ))] "alice" = some b →
        ∃ c, getBal (credit [("alice", (5 : ℚ))] "alice" 3) "alice" = some c ∧
          b ≤ c)
     ∧ (∀ a2 : ℚ, a2 ≤ 0 → credit [("alice", (5 : ℚ))] "alice" a2 =
          [("alice", (5 : ℚ))] ∧
        (deduct [("alice", (5 : ℚ))] "alice" a2).2 = true)) :=
  ⟨by unfold nonnegDB; decide, by norm_num, by norm_num,
   C1_balance_nonneg [("alice", (5 : ℚ))] "alice" "alice" 3 100
     (by unfold nonnegDB; decide) (by norm_num) (by norm_num)⟩

/-! ## C7 — the reserve formula -/

theorem round4_exact (q : ℚ) (n : ℤ) (h : q * 10000 = (n : ℚ)) :
    round4 q = q := by
  unfold round4
  rw [h, round_intCast, eq_comm, eq_div_iff (by norm_num : (10000 : ℚ) ≠ 0)]
  exact h

theorem reserve_shape (ts : Int) :
    min MAX_COST (max MIN_COST (round4 ((ts : ℚ) * COST_PER_SECOND)))
      = round4 (max MIN_COST (min MAX_COST ((ts : ℚ) * COST_PER_SECOND)))
    ∧ MIN_COST ≤
        min MAX_COST (max MIN_COST (round4 ((ts : ℚ) * COST_PER_SECOND)))
    ∧ min MAX_COST (max MIN_COST (round4 ((ts : ℚ) * COST_PER_SECOND)))
      ≤ MAX_COST := by
  have hmm : MIN_COST ≤ MAX_COST := by simp [MIN_COST, MAX_COST]; norm_num
  have hq : round4 ((ts : ℚ) * COST_PER_SECOND) = (ts : ℚ) * COST_PER_SECOND :=
    round4_exact _ (ts * 1000)
      (by simp only [COST_PER_SECOND]; push_cast; ring)
  have hclamp :
      round4 (max MIN_COST (min MAX_COST ((ts : ℚ) * COST_PER_SECOND)))
        = max MIN_COST (min MAX_COST ((ts : ℚ) * COST_PER_SECOND)) := by
    rcases le_total ((ts : ℚ) * COST_PER_SECOND) MIN_COST with h1 | h1
    · have : max MIN_COST (min MAX_COST ((ts : ℚ) * COST_PER_SECOND))
          = MIN_COST :=
        max_eq_left (le_trans (min_le_right _ _) h1)
      rw [this]
      exact round4_exact _ 500 (by simp [MIN_COST]; norm_num)
    · rcases le_total MAX_COST ((ts : ℚ) * COST_PER_SECOND) with h2 | h2
      · have : max MIN_COST (min MAX_COST ((ts : ℚ) * COST_PER_SECOND))
            = MAX_COST := by
          rw [min_eq_left h2]; exact max_eq_right hmm
        rw [this]
        exact round4_exact _ 250000 (by simp [MAX_COST]; norm_num)
      · have : max MIN_COST (min MAX_COST ((ts : ℚ) * COST_PER_SECOND))
            = (ts : ℚ) * COST_PER_SECOND := by
          rw [min_eq_right h2]; exact max_eq_right h1
        rw [this]; exact hq
  refine ⟨?_, ?_, min_le_left _ _⟩
  · rw [hq, hclamp, min_max_distrib_left, min_eq_right hmm]
  · exact le_min hmm (le_max_left _ _)

/-- **C7.** For every timeout, the code's `get_max_reserve` equals the
specification's formula (clamp of `timeout × cost_per_second` to
`[min_cost, max_cost]`, rounded to 4 decimals, default timeout
substituted when absent or non-positive), and the reserve always lies in
`[MIN_COST, MAX_COST]`. -/
theorem C7_max_reserve_refines (t : Option Int) :
    get_max_reserve t = max_reserve_spec t
    ∧ MIN_COST ≤ get_max_reserve t ∧ get_max_reserve t ≤ MAX_COST := by
  cases t with
  | none =>
    have h := reserve_shape 60
    simpa [get_max_reserve, max_reserve_spec, DEFAULT_JOB_TIMEOUT] using h
  | some v =>
    by_cases hv : v ≤ 0
    · have h := reserve_shape 60
      simpa [get_max_reserve, max_reserve_spec, DEFAULT_JOB_TIMEOUT, hv]
        using h
    · have h := reserve_shape v
      simpa [get_max_reserve, max_reserve_spec, DEFAULT_JOB_TIMEOUT, hv]
        using h

/-! ## C8 — atomic job completion -/

/-- **C8.** `complete_job` sets the job's status to `completed` when the
exit code is 0 and to `failed` otherwise, stamps `completed_at` with the
current time and stores stdout/stderr/exit-code; on exit code 0 the
worker's `jobs_completed` counter is incremented and the worker is set
idle (on failure it is set idle without the increment). -/
theorem C8_complete_job (s : Store) (tNow : ℚ) (jid wid out err : String)
    (ec : Int) (j : Job) (w : Worker)
    (hj : s.jobs.find? (fun j2 => j2.id == jid) = some j)
    (hw : s.workers.find? (fun w2 => w2.id == wid) = some w) :
    (db_complete_job s tNow jid wid out err ec).jobs.find?
        (fun j2 => j2.id == jid)
      = some { j with status := if ec = 0 then "completed" else "failed",
                      completed_at := some tNow, stdout := out, stderr := err,
                      exit_code := some ec }
    ∧ (db_complete_job s tNow jid wid out err ec).workers.find?
        (fun w2 => w2.id == wid)
      = some (if ec = 0 then
            { w with status := "idle",
                     jobs_completed := w.jobs_completed + 1 }
          else { w with status := "idle" }) := by
  have hjid : j.id = jid := by simpa using List.find?_some hj
  have hwid : w.id = wid := by simpa using List.find?_some hw
  constructor
  · unfold db_complete_job
    simp only
    rw [find?_map_pred _ _
      (fun a => by by_cases h : a.id == jid <;> simp [h]) s.jobs, hj]
    simp [hjid]
  · unfold db_complete_job
    by_cases hec : ec = 0
    · simp only [hec, if_true]
      rw [find?_map_pred _ _
        (fun a => by by_cases h : a.id == wid <;> simp [h]) s.workers, hw]
      simp [hwid]
    · simp only [hec, if_false]
      rw [find?_map_pred _ _
        (fun a => by by_cases h : a.id == wid <;> simp [h]) s.workers, hw]
      simp [hwid]

/-- Witness for C8: completing the concrete running job with exit code 0. -/
theorem C8_complete_job_witness :
    exRunStore.jobs.find? (fun j2 => j2.id == J1) = some exRunningJob
    ∧ exRunStore.workers.find? (fun w2 => w2.id == W1) = some exBusyWorker
    ∧ ((db_complete_job exRunStore 5 J1 W1 "hi" "" 0).jobs.find?
          (fun j2 => j2.id == J1)
        = some { exRunningJob with
                  status := if (0 : Int) = 0 then "completed" else "failed",
                  completed_at := some 5, stdout := "hi", stderr := "",
                  exit_code := some 0 }
      ∧ (db_complete_job exRunStore 5 J1 W1 "hi" "" 0).workers.find?
          (fun w2 => w2.id == W1)
        = some (if (0 : Int) = 0 then
              { exBusyWorker with
                  status := "idle",
                  jobs_completed := exBusyWorker.jobs_completed + 1 }
            else { exBusyWorker with status := "idle" })) :=
  ⟨by decide, by decide,
   C8_complete_job exRunStore 5 J1 W1 "hi" "" 0 exRunningJob
     exBusyWorker (by decide) (by decide)⟩

/-! ## C4 — wrong password is rejected without mutation -/

/-- **C4.** A hello carrying an owner id that is present in `user_auth`
together with a token that does not verify is answered by `auth_error`
and a close with code 4401, and neither the Store nor the Registry is
changed. -/
theorem C4_auth_reject (s : Store) (reg : Registry) (tNow : ℚ)
    (incoming_raw fresh : String) (caps : Caps) (owner tok ip : String)
    (howner : owner ≠ "") (htok : tok ≠ "")
    (hverify : db_verify_user_auth s.user_auth owner tok = false)
    (hexists : (s.user_auth.find? fun r => r.user_id == owner).isSome = true) :
    handle_hello s reg tNow incoming_raw fresh caps owner tok ip
      = (s, reg, HelloOutcome.authError 4401) := by
  unfold handle_hello
  rw [if_pos ⟨htok, howner⟩, if_neg (by simp [hverify]), if_pos hexists]

/-- Witness for C4: `bob` is registered with token `"T1"`; a hello with
token `"T2"` is rejected with 4401 and no state change. -/
theorem C4_auth_reject_witness :
    ("bob" : String) ≠ "" ∧ ("T2" : String) ≠ ""
    ∧ db_verify_user_auth exAuthStore.user_auth "bob" "T2" = false
    ∧ (exAuthStore.user_auth.find? fun r => r.user_id == "bob").isSome = true
    ∧ handle_hello exAuthStore [] 7 "" J1 {} "bob" "T2" "9.9.9.9"
        = (exAuthStore, [], HelloOutcome.authError 4401) :=
  ⟨by decide, by decide, by decide, by decide,
   C4_auth_reject exAuthStore [] 7 "" J1 {} "bob" "T2" "9.9.9.9"
     (by decide) (by decide) (by decide) (by decide)⟩

/-! ## C2 — reconnect reuses the stored worker id -/

theorem upsert_existing (s : Store) (tNow : ℚ) (wid ip : String) (caps : Caps)
    (status owner tok : String) (hvalid : validate_uuid wid = true)
    (hsome : (s.workers.find? fun x => x.id == wid).isSome) :
    db_upsert_worker s tNow wid ip caps status owner tok
      = some { s with
          workers := s.workers.map fun x =>
            if x.id == wid then
              { x with ip := ip, caps := caps, status := status,
                       last_heartbeat := some tNow }
            else x,
          user_auth := if tok ≠ "" ∧ owner ≠ "" then
              db_register_user_auth s.user_auth tNow owner tok
            else s.user_auth } := by
  unfold db_upsert_worker
  rw [if_neg (by simp [hvalid])]
  simp [hsome]

/-- **C2.** When a hello's owner/token pair verifies against `user_auth`
and a worker row with that owner and exactly that token exists, the
coordinator acknowledges with that row's worker id (reconnect), the
worker table does not grow, and the reused row's `last_heartbeat` is
refreshed to the current time. -/
theorem C2_reconnect_reuse (s : Store) (reg : Registry) (tNow : ℚ)
    (incoming_raw fresh : String) (caps : Caps) (owner tok ip : String)
    (w : Worker)
    (howner : owner ≠ "") (htok : tok ≠ "")
    (hverify : db_verify_user_auth s.user_auth owner tok = true)
    (hbyauth : db_get_worker_by_auth s.workers owner tok = some w)
    (hvalid : validate_uuid w.id = true) :
    ∃ s2 reg2,
      handle_hello s reg tNow incoming_raw fresh caps owner tok ip
        = (s2, reg2, HelloOutcome.ack w.id)
      ∧ s2.workers.length = s.workers.length
      ∧ ∃ w2, s2.workers.find? (fun x => x.id == w.id) = some w2
          ∧ w2.last_heartbeat = some tNow ∧ w2.id = w.id := by
  have hmem : w ∈ s.workers := by
    unfold db_get_worker_by_auth at hbyauth
    rw [if_neg howner] at hbyauth
    exact List.mem_of_find?_eq_some hbyauth
  have hsome : (s.workers.find? fun x => x.id == w.id).isSome :=
    List.find?_isSome.mpr ⟨w, hmem, by simp⟩
  unfold handle_hello
  rw [if_pos ⟨htok, howner⟩, if_pos hverify, hbyauth]
  simp only
  rw [upsert_existing s tNow w.id ip caps "idle" owner tok hvalid hsome]
  simp only
  refine ⟨_, _, rfl, by simp, ?_⟩
  rw [find?_map_pred _ _ (fun a => by by_cases h : a.id == w.id <;> simp [h])
    s.workers]
  obtain ⟨w0, hw0⟩ := Option.isSome_iff_exists.mp hsome
  have hw0id : w0.id = w.id := by simpa using List.find?_some hw0
  rw [hw0]
  exact ⟨_, rfl, by simp [hw0id], by simp [hw0id]⟩

/-- Witness for C2: `bob` reconnects with token `"T1"`; the stored worker
id `W1` is reused even though the hello proposes a different id. -/
theorem C2_reconnect_reuse_witness :
    ("bob" : String) ≠ "" ∧ ("T1" : String) ≠ ""
    ∧ db_verify_user_auth exAuthStore.user_auth "bob" "T1" = true
    ∧ db_get_worker_by_auth exAuthStore.workers "bob" "T1" = some exAuthWorker
    ∧ validate_uuid exAuthWorker.id = true
    ∧ (∃ s2 reg2,
        handle_hello exAuthStore [] 9 J1 J1 {} "bob" "T1" "9.9.9.9"
          = (s2, reg2, HelloOutcome.ack exAuthWorker.id)
        ∧ s2.workers.length = exAuthStore.workers.length
        ∧ ∃ w2, s2.workers.find? (fun x => x.id == exAuthWorker.id) = some w2
            ∧ w2.last_heartbeat = some 9 ∧ w2.id = exAuthWorker.id) :=
  ⟨by decide, by decide, by decide, by decide, by decide,
   C2_reconnect_reuse exAuthStore [] 9 J1 J1 {} "bob" "T1" "9.9.9.9"
     exAuthWorker (by decide) (by decide) (by decide) (by decide) (by decide)⟩

/-! ## C9 — teardown requeues in-flight jobs -/

/-- **C9.** On disconnect of a session that completed hello: every job in
status `running` whose worker id is this session's is reset to `queued`
with the worker id cleared and its id appended to the scheduler FIFO (in
store order); the worker's Store row is set `offline`; and the registry
entry is removed. -/
theorem C9_requeue_on_disconnect (s : Store) (reg : Registry)
    (queue : List String) (wid : String)
    (hvalid : validate_uuid wid = true) :
    (handle_disconnect s reg queue wid).2.2
      = queue ++ ((s.jobs.filter fun j =>
          j.status == "running" && j.worker_id == some wid).map Job.id)
    ∧ (∀ j ∈ s.jobs, j.status = "running" → j.worker_id = some wid →
        ({ j with status := "queued", worker_id := none })
            ∈ (handle_disconnect s reg queue wid).1.jobs
        ∧ j.id ∈ (handle_disconnect s reg queue wid).2.2)
    ∧ (∀ w ∈ s.workers, w.id = wid →
        ({ w with status := "offline" })
          ∈ (handle_disconnect s reg queue wid).1.workers)
    ∧ (∀ p ∈ (handle_disconnect s reg queue wid).2.1, p.1 ≠ wid) := by
  unfold handle_disconnect db_set_worker_offline unregister_worker_ws
  rw [if_pos hvalid]
  simp only
  refine ⟨by trivial, ?_, ?_, ?_⟩
  · intro j hj hst hwk
    have hidmem : j.id ∈ (s.jobs.filter fun j2 =>
        j2.status == "running" && j2.worker_id == some wid).map Job.id :=
      List.mem_map.mpr ⟨j, List.mem_filter.mpr ⟨hj, by simp [hst, hwk]⟩, rfl⟩
    have hcont : ((s.jobs.filter fun j2 =>
        j2.status == "running" && j2.worker_id == some wid).map Job.id).contains
          j.id = true := by
      simpa [List.contains] using hidmem
    constructor
    · exact List.mem_map.mpr ⟨j, hj, by rw [if_pos hcont]⟩
    · exact List.mem_append.mpr (Or.inr hidmem)
  · intro w hw hid
    exact List.mem_map.mpr ⟨w, hw, by simp [hid]⟩
  · intro p hp
    have := (List.mem_filter.mp hp).2
    simpa using this

/-- Witness for C9: killing the session of `W1` while `exRunningJob` is
running on it requeues that job and sets the worker offline. -/
theorem C9_requeue_on_disconnect_witness :
    validate_uuid W1 = true
    ∧ ((handle_disconnect exRunStore exIdleReg [] W1).2.2
        = [] ++ ((exRunStore.jobs.filter fun j =>
            j.status == "running" && j.worker_id == some W1).map Job.id)
      ∧ (∀ j ∈ exRunStore.jobs, j.status = "running" →
          j.worker_id = some W1 →
          ({ j with status := "queued", worker_id := none })
              ∈ (handle_disconnect exRunStore exIdleReg [] W1).1.jobs
          ∧ j.id ∈ (handle_disconnect exRunStore exIdleReg [] W1).2.2)
      ∧ (∀ w ∈ exRunStore.workers, w.id = W1 →
          ({ w with status := "offline" })
            ∈ (handle_disconnect exRunStore exIdleReg [] W1).1.workers)
      ∧ (∀ p ∈ (handle_disconnect exRunStore exIdleReg [] W1).2.1,
          p.1 ≠ W1)) :=
  ⟨by decide, C9_requeue_on_disconnect exRunStore exIdleReg [] W1 (by decide)⟩

/-! ## C5 — settlement -/

theorem get_balance_credit_cond (db : CreditDB) (cond : Prop) [Decidable cond]
    (u v : String) (a : ℚ) :
    get_balance (if cond then credit db u a else db) v
      = get_balance db v + (if cond ∧ v = u ∧ 0 < a then a else 0) := by
  by_cases h : cond
  · rw [if_pos h, get_balance_credit]
    by_cases hv : v = u ∧ 0 < a
    · rw [if_pos hv, if_pos ⟨h, hv⟩]
    · rw [if_neg hv, if_neg fun hh => hv hh.2]
  · rw [if_neg h, if_neg fun hh => h hh.1, add_zero]

theorem compute_cost_two : compute_cost (some 2) = 1/5 := by
  show (if (2 : ℚ) < 0 then MIN_COST
      else max MIN_COST (min MAX_COST (round4 (2 * COST_PER_SECOND)))) = 1/5
  rw [if_neg (by norm_num),
    round4_exact _ 2000 (by norm_num [COST_PER_SECOND]),
    min_eq_right (by norm_num [MAX_COST, COST_PER_SECOND]),
    max_eq_right (by norm_num [MIN_COST, COST_PER_SECOND])]
  norm_num [COST_PER_SECOND]

theorem compute_reward_fifth : compute_reward (1/5) = 17/100 := by
  unfold compute_reward
  rw [if_neg (by norm_num),
    round4_exact _ 1700 (by norm_num [ REWARD_RATIO])]
  norm_num [ REWARD_RATIO]

/-- **C5 (counterexample to the claim as stated).**  The claim (and spec
I7) makes "distinct from the submitter" a condition for crediting the
worker owner.  `settle_job` never compares the owner with the submitter:
here the job's submitter `alice` — reserved 25, duration 2 s, so refund
24.8 and reward 0.17 — is also the worker owner, and her final balance is
100 + 24.8 + 0.17 = 124.97, not the 100 + 24.8 the claim predicts when
the reward condition fails. -/
theorem C5_counterexample :
    get_balance
        (settle_job exC5Store J1 (some "alice") (some 2)).user_credits "alice"
      = 100 + 124/5 + 17/100
    ∧ (100 + 124/5 + 17/100 : ℚ) ≠ 100 + 124/5 := by
  have hjob : db_get_job exC5Store.jobs J1 = some exC5Job := by decide
  have e1 : compute_cost (some 2) = 1/5 := compute_cost_two
  have e2 : compute_reward (1/5) = 17/100 := compute_reward_fifth
  have hstrip : pyStrip "alice" = "alice" := by decide
  have hres : (if exC5Job.cost ≤ 0 then MAX_COST else exC5Job.cost) = 25 := by
    rw [if_neg]; · rfl
    · show ¬ (25 : ℚ) ≤ 0; norm_num
  constructor
  · unfold settle_job
    rw [hjob]
    simp only
    rw [get_balance_credit_cond, get_balance_credit_cond]
    have hbal : get_balance exC5Store.user_credits "alice" = 100 := by decide
    rw [hbal]
    have hrefund : max 0 ((if exC5Job.cost ≤ 0 then MAX_COST else exC5Job.cost)
        - compute_cost (some 2)) = 124/5 := by
      rw [hres, e1]; norm_num
    have huid : pyStrip exC5Job.user_id = "alice" := by
      show pyStrip "alice" = "alice"; exact hstrip
    have hown : pyStrip ((some "alice" : Option String).getD "") = "alice" := by
      show pyStrip "alice" = "alice"; exact hstrip
    rw [hrefund, e1, e2, huid, hown]
    rw [if_pos ⟨⟨by norm_num, by decide⟩, rfl, by norm_num⟩,
       if_pos ⟨⟨by norm_num, by decide⟩, rfl, by norm_num⟩]
  · norm_num

/-- **C5 (amended).** For every settlement of a job with stored reserve
`R` (`MAX_COST` substituted when `R ≤ 0`), reported duration `d`,
(stripped) submitter `uid` and (stripped) owner `ownr`: the submitter is
credited `refund = max 0 (R − compute_cost d)` exactly when the refund is
positive and `uid` is non-empty; the owner is credited
`compute_reward (compute_cost d)` exactly when the reward is positive and
`ownr` is non-empty — with NO distinct-from-submitter condition; and the
job row is updated with the actual cost and the duration. -/
theorem C5_settle_amended (s : Store) (jid : String) (owner? : Option String)
    (dur : Option ℚ) (job : Job) (v : String)
    (reserved refund reward : ℚ) (uid ownr : String)
    (hjob : db_get_job s.jobs jid = some job)
    (hres : reserved = if job.cost ≤ 0 then MAX_COST else job.cost)
    (hrefund : refund = max 0 (reserved - compute_cost dur))
    (hreward : reward = compute_reward (compute_cost dur))
    (huid : uid = pyStrip job.user_id)
    (hown : ownr = pyStrip (owner?.getD "")) :
    get_balance (settle_job s jid owner? dur).user_credits v
      = get_balance s.user_credits v
        + (if 0 < refund ∧ v = uid ∧ uid ≠ "" then refund else 0)
        + (if 0 < reward ∧ v = ownr ∧ ownr ≠ "" then reward else 0)
    ∧ db_get_job (settle_job s jid owner? dur).jobs jid
      = some { job with duration_seconds := some (dur.getD 0),
                        cost := compute_cost dur } := by
  subst hres hrefund hreward huid hown
  have hval : validate_uuid jid = true := by
    by_contra h
    unfold db_get_job at hjob
    rw [if_neg h] at hjob
    exact Option.noConfusion hjob
  have hfind : s.jobs.find? (fun j => j.id == jid) = some job := by
    unfold db_get_job at hjob
    rw [if_pos hval] at hjob
    exact hjob
  have hjid : job.id = jid := by
    simpa using List.find?_some hfind
  constructor
  · unfold settle_job
    rw [hjob]
    simp only
    rw [get_balance_credit_cond, get_balance_credit_cond]
    congr 1
    · congr 1
      exact if_congr (by tauto) rfl rfl
    · exact if_congr (by tauto) rfl rfl
  · unfold settle_job
    rw [hjob]
    simp only
    unfold db_get_job
    rw [if_pos hval]
    rw [find?_map_pred _ _
      (fun a => by by_cases h : a.id == jid <;> simp [h]) s.jobs, hfind]
    simp [hjid]

/-- Witness for the amended C5, with owner `bob` distinct from submitter
`alice` (reserved 25, duration 2 s, refund 24.8, reward 0.17). -/
theorem C5_settle_amended_witness :
    db_get_job exC5Store.jobs J1 = some exC5Job
    ∧ (25 : ℚ) = (if exC5Job.cost ≤ 0 then MAX_COST else exC5Job.cost)
    ∧ (124/5 : ℚ) = max 0 (25 - compute_cost (some 2))
    ∧ (17/100 : ℚ) = compute_reward (compute_cost (some 2))
    ∧ ("alice" : String) = pyStrip exC5Job.user_id
    ∧ ("bob" : String) = pyStrip ((some "bob" : Option String).getD "")
    ∧ (get_balance
          (settle_job exC5Store J1 (some "bob") (some 2)).user_credits "bob"
        = get_balance exC5Store.user_credits "bob"
          + (if 0 < (124/5 : ℚ) ∧ ("bob" : String) = "alice"
                ∧ ("alice" : String) ≠ "" then (124/5 : ℚ) else 0)
          + (if 0 < (17/100 : ℚ) ∧ ("bob" : String) = "bob"
                ∧ ("bob" : String) ≠ "" then (17/100 : ℚ) else 0)
      ∧ db_get_job (settle_job exC5Store J1 (some "bob") (some 2)).jobs J1
        = some { exC5Job with
                  duration_seconds := some ((some (2 : ℚ)).getD 0),
                  cost := compute_cost (some 2) }) :=
  ⟨by decide,
   by show (25 : ℚ) = if (25 : ℚ) ≤ 0 then MAX_COST else (25 : ℚ)
      rw [if_neg (by norm_num)],
   by rw [compute_cost_two]; norm_num,
   by rw [compute_cost_two]; exact compute_reward_fifth.symm,
   by decide,
   by decide,
   C5_settle_amended exC5Store J1 (some "bob") (some 2) exC5Job "bob"
     25 (124/5) (17/100) "alice" "bob"
     (by decide)
     (by show (25 : ℚ) = if (25 : ℚ) ≤ 0 then MAX_COST else (25 : ℚ)
         rw [if_neg (by norm_num)])
     (by rw [compute_cost_two]; norm_num)
     (by rw [compute_cost_two]; exact compute_reward_fifth.symm)
     (by decide)
     (by decide)⟩

/-! ## C3 and C6 — one dispatch iteration -/

theorem get_idle_mem (reg : Registry) (ex w : String)
    (h : get_idle_worker_id reg ex = some w) :
    (reg.find? fun p => p.1 == w).isSome := by
  unfold get_idle_worker_id at h
  cases hf : reg.find? fun p =>
      !(ex ≠ "" && p.2.owner_id ≠ "" && p.2.owner_id == ex) &&
        p.2.status == "idle" && p.2.caps.can_execute.getD true with
  | none => rw [hf] at h; exact absurd h (by simp)
  | some q =>
    rw [hf] at h
    have hq : q.1 = w := by simpa using h
    exact List.find?_isSome.mpr
      ⟨q, List.mem_of_find?_eq_some hf, by simp [hq]⟩

theorem get_worker_ws_set_busy (reg : Registry) (t : ℚ) (w : String)
    (h : (reg.find? fun p => p.1 == w).isSome) :
    get_worker_ws (set_worker_busy reg t w) w = true := by
  unfold get_worker_ws set_worker_busy
  rw [find?_map_pred _ _ (fun a => by by_cases hh : a.1 == w <;> simp [hh])]
  simpa using h

theorem set_worker_busy_status (reg : Registry) (t : ℚ) (w : String) :
    ∀ p ∈ set_worker_busy reg t w, p.1 = w → p.2.status = "busy" := by
  intro p hp hw
  unfold set_worker_busy at hp
  rcases List.mem_map.mp hp with ⟨q, hq, rfl⟩
  by_cases h : (q.1 == w) = true
  · simp only [h, if_true]
  · simp only [h, if_false] at hw ⊢
    exact absurd hw (by simpa using h)

/-- One iteration of `dispatch` in which a job and an idle worker were
found and the send succeeds: the `assign_job` message is recorded and the
loop continues on the rest of the queue — with no case split on the
result of the CAS, whose store effect is threaded through but whose
boolean is dropped. -/
theorem dispatchLoop_send_step (tNow : ℚ) (sendOk : String → Bool)
    (job_id : String) (rest : List String) (s : Store) (reg : Registry)
    (sends : List (String × AssignMsg)) (job : Job) (w : String)
    (hjob : db_get_job s.jobs job_id = some job)
    (hidle : get_idle_worker_id reg (pyStrip job.user_id) = some w)
    (hsend : sendOk w = true) :
    dispatchLoop tNow sendOk (job_id :: rest) s reg sends
      = dispatchLoop tNow sendOk rest
          (db_set_job_assigned (db_set_worker_status s tNow w "busy") tNow
            job_id w).1
          (set_worker_busy reg tNow w)
          (sends ++ [(w, mkAssignMsg job_id job)]) := by
  have hws : get_worker_ws (set_worker_busy reg tNow w) w = true :=
    get_worker_ws_set_busy reg tNow w (get_idle_mem reg _ w hidle)
  conv_lhs => rw [dispatchLoop]
  rw [hjob]
  simp only
  rw [hidle]
  simp only [hws, hsend, if_true]

/-- **C3 (counterexample to the claim as stated).**  With job `J1` already
in status `running` (a stale queue entry) the CAS fails at exactly the
point `dispatch` calls it — yet the `assign_job` message is still sent to
the chosen worker, and the worker is left `busy` in the registry instead
of being marked idle again: `dispatch` discards the CAS boolean. -/
theorem C3_counterexample :
    (db_set_job_assigned (db_set_worker_status exC3Store 1 W1 "busy")
        1 J1 W1).2 = false
    ∧ (dispatchLoop 1 (fun _ => true) [J1] exC3Store exIdleReg []).2.2.2
      = [(W1, mkAssignMsg J1 exRunningJob)]
    ∧ (∀ p ∈ (dispatchLoop 1 (fun _ => true) [J1] exC3Store exIdleReg
          []).2.2.1, p.1 = W1 → p.2.status = "busy") := by
  decide

/-- **C3 (amended).** In a dispatch iteration that found a job and an
idle worker and whose send succeeds, the `assign_job` message is sent
whether or not the CAS succeeded — here stated under the hypothesis that
the CAS returns failure — and the worker stays `busy` in the registry;
the only revert-to-idle paths in the source are a missing session handle
or a failed send. -/
theorem C3_dispatch_ignores_cas (tNow : ℚ) (sendOk : String → Bool)
    (job_id : String) (rest : List String) (s : Store) (reg : Registry)
    (sends : List (String × AssignMsg)) (job : Job) (w : String)
    (hjob : db_get_job s.jobs job_id = some job)
    (hidle : get_idle_worker_id reg (pyStrip job.user_id) = some w)
    (hsend : sendOk w = true)
    (_hcasFail : (db_set_job_assigned (db_set_worker_status s tNow w "busy")
        tNow job_id w).2 = false) :
    dispatchLoop tNow sendOk (job_id :: rest) s reg sends
      = dispatchLoop tNow sendOk rest
          (db_set_job_assigned (db_set_worker_status s tNow w "busy") tNow
            job_id w).1
          (set_worker_busy reg tNow w)
          (sends ++ [(w, mkAssignMsg job_id job)])
    ∧ (∀ p ∈ set_worker_busy reg tNow w, p.1 = w → p.2.status = "busy") :=
  ⟨dispatchLoop_send_step tNow sendOk job_id rest s reg sends job w
      hjob hidle hsend,
   set_worker_busy_status reg tNow w⟩

/-- Witness for the amended C3 at the concrete stale-queue state. -/
theorem C3_dispatch_ignores_cas_witness :
    db_get_job exC3Store.jobs J1 = some exRunningJob
    ∧ get_idle_worker_id exIdleReg (pyStrip exRunningJob.user_id) = some W1
    ∧ (fun _ : String => true) W1 = true
    ∧ (db_set_job_assigned (db_set_worker_status exC3Store 1 W1 "busy")
        1 J1 W1).2 = false
    ∧ (dispatchLoop 1 (fun _ => true) (J1 :: []) exC3Store exIdleReg []
        = dispatchLoop 1 (fun _ => true) []
            (db_set_job_assigned (db_set_worker_status exC3Store 1 W1 "busy")
              1 J1 W1).1
            (set_worker_busy exIdleReg 1 W1)
            ([] ++ [(W1, mkAssignMsg J1 exRunningJob)])
      ∧ (∀ p ∈ set_worker_busy exIdleReg 1 W1, p.1 = W1 →
          p.2.status = "busy")) :=
  ⟨by decide, by decide, rfl, by decide,
   C3_dispatch_ignores_cas 1 (fun _ => true) J1 [] exC3Store exIdleReg []
     exRunningJob W1 (by decide) (by decide) rfl (by decide)⟩

/-- **C6 (counterexample to the claim as stated).**  A submission with
timeout 300 s reserves `get_max_reserve 300 = 25` credits and stores
`timeout_s = 300` in the job row, but the `assign_job` message dispatch
sends carries the hardcoded `timeout_s = 30`, not 300. -/
theorem C6_counterexample :
    get_max_reserve (some 300) = 25
    ∧ exC6Job.limits.timeout_s = 300
    ∧ (dispatchLoop 0 (fun _ => true) [J1] exC6DispatchStore exIdleReg
          []).2.2.2
      = [(W1, { job_id := J1, kind := "python", script := "print(1)",
                limits := { cpus := 1, memory := "256m",
                            timeout_s := 30 } })]
    ∧ (30 : Int) ≠ 300 := by
  refine ⟨?_, by decide, by decide, by decide⟩
  show min MAX_COST
      (max MIN_COST (round4 (((300 : Int) : ℚ) * COST_PER_SECOND))) = 25
  rw [round4_exact _ 300000 (by norm_num [COST_PER_SECOND]),
    max_eq_right (by norm_num [MIN_COST, COST_PER_SECOND]),
    min_eq_left (by norm_num [MAX_COST, COST_PER_SECOND])]
  rfl

/-- **C6 (amended).** The `assign_job` message built by `dispatch` always
carries the literal limits `{cpus := 1, memory := "256m",
timeout_s := 30}`, regardless of the job's stored limits: changing the
job row's `timeout_s` to any value leaves the message unchanged.  The
message is the one actually sent in a dispatch iteration that pairs the
job with an idle worker. -/
theorem C6_assign_limits_hardcoded (tNow : ℚ) (sendOk : String → Bool)
    (job_id : String) (rest : List String) (s : Store) (reg : Registry)
    (sends : List (String × AssignMsg)) (job : Job) (w : String)
    (t2 : Int)
    (hjob : db_get_job s.jobs job_id = some job)
    (hidle : get_idle_worker_id reg (pyStrip job.user_id) = some w)
    (hsend : sendOk w = true) :
    dispatchLoop tNow sendOk (job_id :: rest) s reg sends
      = dispatchLoop tNow sendOk rest
          (db_set_job_assigned (db_set_worker_status s tNow w "busy") tNow
            job_id w).1
          (set_worker_busy reg tNow w)
          (sends ++ [(w, mkAssignMsg job_id job)])
    ∧ (mkAssignMsg job_id job).limits
      = { cpus := 1, memory := "256m", timeout_s := 30 }
    ∧ mkAssignMsg job_id { job with limits := ⟨t2⟩ }
      = mkAssignMsg job_id job :=
  ⟨dispatchLoop_send_step tNow sendOk job_id rest s reg sends job w
      hjob hidle hsend,
   rfl, rfl⟩

/-- Witness for the amended C6 at the timeout-300 job. -/
theorem C6_assign_limits_hardcoded_witness :
    db_get_job exC6DispatchStore.jobs J1 = some exC6Job
    ∧ get_idle_worker_id exIdleReg (pyStrip exC6Job.user_id) = some W1
    ∧ (fun _ : String => true) W1 = true
    ∧ (dispatchLoop 0 (fun _ => true) (J1 :: []) exC6DispatchStore exIdleReg
          []
        = dispatchLoop 0 (fun _ => true) []
            (db_set_job_assigned
              (db_set_worker_status exC6DispatchStore 0 W1 "busy") 0 J1
              W1).1
            (set_worker_busy exIdleReg 0 W1)
            ([] ++ [(W1, mkAssignMsg J1 exC6Job)])
      ∧ (mkAssignMsg J1 exC6Job).limits
        = { cpus := 1, memory := "256m", timeout_s := 30 }
      ∧ mkAssignMsg J1 { exC6Job with limits := ⟨444⟩ }
        = mkAssignMsg J1 exC6Job) :=
  ⟨by decide, by decide, rfl,
   C6_assign_limits_hardcoded 0 (fun _ => true) J1 [] exC6DispatchStore
     exIdleReg [] exC6Job W1 444 (by decide) (by decide) rfl⟩

/-! ## C10 — defaulting the submitter to "demo" -/

theorem ensure_getBal (db : CreditDB) (u : String) (i : ℚ) :
    getBal (ensure_user db u i).1 u = some ((ensure_user db u i).2) := by
  unfold ensure_user
  cases h : getBal db u with
  | some c => exact h
  | none => rw [getBal_append_single, h]; simp

theorem getBal_exists_row (db : CreditDB) (u : String) (b : ℚ)
    (h : getBal db u = some b) : ∃ p ∈ db, p.1 = u ∧ p.2 = b := by
  unfold getBal at h
  cases hf : List.find? (fun p => p.1 == u) db with
  | none => rw [hf] at h; exact absurd h (by simp)
  | some q =>
    rw [hf] at h
    exact ⟨q, List.mem_of_find?_eq_some hf,
      by simpa using List.find?_some hf, by simpa using h⟩

theorem db_set_worker_status_credits (s : Store) (t : ℚ) (w st : String) :
    (db_set_worker_status s t w st).user_credits = s.user_credits := by
  unfold db_set_worker_status; split <;> rfl

theorem db_set_worker_status_jobs (s : Store) (t : ℚ) (w st : String) :
    (db_set_worker_status s t w st).jobs = s.jobs := by
  unfold db_set_worker_status; split <;> rfl

theorem db_set_job_assigned_credits (s : Store) (t : ℚ) (jid wid : String) :
    (db_set_job_assigned s t jid wid).1.user_credits = s.user_credits := by
  unfold db_set_job_assigned db_assign_job_to_worker
  split
  · split
    · rfl
    · split <;> rfl
  · rfl

theorem find?_jobField_map (l : List Job) (k : String) (u : Job → Job)
    (hu : ∀ j, (u j).id = j.id ∧ (u j).user_id = j.user_id ∧
      (u j).cost = j.cost) :
    ((l.map u).find? fun j => j.id == k).map (fun j => (j.user_id, j.cost))
      = (l.find? fun j => j.id == k).map fun j => (j.user_id, j.cost) := by
  rw [find?_map_pred _ u (fun a => by
    show ((u a).id == k) = (a.id == k)
    rw [(hu a).1])]
  cases l.find? fun j => j.id == k with
  | none => rfl
  | some j => simp [(hu j).2.1, (hu j).2.2]

theorem db_set_job_assigned_jobField (s : Store) (t : ℚ) (jid wid k : String) :
    ((db_set_job_assigned s t jid wid).1.jobs.find? fun j => j.id == k).map
        (fun j => (j.user_id, j.cost))
      = (s.jobs.find? fun j => j.id == k).map fun j => (j.user_id, j.cost) := by
  unfold db_set_job_assigned db_assign_job_to_worker
  split
  · split
    · rfl
    · split
      · rfl
      · exact find?_jobField_map s.jobs k _ (fun j => by
          by_cases h : (j.id == jid && j.status == "queued") = true <;>
            simp [h])
  · rfl

theorem dispatchLoop_credits (tNow : ℚ) (sendOk : String → Bool) :
    ∀ (q : List String) (s : Store) (reg : Registry)
      (sends : List (String × AssignMsg)),
    (dispatchLoop tNow sendOk q s reg sends).2.1.user_credits
      = s.user_credits := by
  intro q
  induction q with
  | nil => intro s reg sends; rfl
  | cons jid rest ih =>
    intro s reg sends
    rw [dispatchLoop]
    split
    · exact ih s reg sends
    · dsimp only
      split
      · rfl
      · next w heq2 =>
          split
          · split
            · rw [ih, db_set_job_assigned_credits,
                db_set_worker_status_credits]
            · show (db_set_worker_status ((db_set_job_assigned
                  (db_set_worker_status s tNow w "busy") tNow jid w).1) tNow
                  w "idle").user_credits = s.user_credits
              rw [db_set_worker_status_credits, db_set_job_assigned_credits,
                db_set_worker_status_credits]
          · show (db_set_worker_status ((db_set_job_assigned
                (db_set_worker_status s tNow w "busy") tNow jid w).1) tNow
                w "idle").user_credits = s.user_credits
            rw [db_set_worker_status_credits, db_set_job_assigned_credits,
              db_set_worker_status_credits]

theorem dispatchLoop_jobField (tNow : ℚ) (sendOk : String → Bool) :
    ∀ (q : List String) (s : Store) (reg : Registry)
      (sends : List (String × AssignMsg)) (k : String),
    ((dispatchLoop tNow sendOk q s reg sends).2.1.jobs.find?
        fun j => j.id == k).map (fun j => (j.user_id, j.cost))
      = (s.jobs.find? fun j => j.id == k).map fun j => (j.user_id, j.cost) := by
  intro q
  induction q with
  | nil => intro s reg sends k; rfl
  | cons jid rest ih =>
    intro s reg sends k
    rw [dispatchLoop]
    split
    · exact ih s reg sends k
    · dsimp only
      split
      · rfl
      · next w heq2 =>
          split
          · split
            · rw [ih, db_set_job_assigned_jobField]
              rw [show (db_set_worker_status s tNow w "busy").jobs = s.jobs
                from db_set_worker_status_jobs s tNow w "busy"]
            · show (((db_set_worker_status ((db_set_job_assigned
                    (db_set_worker_status s tNow w "busy") tNow jid w).1)
                    tNow w "idle").jobs.map fun j =>
                  if j.id == jid then
                    { j with status := "queued", worker_id := none }
                  else j).find? fun j => j.id == k).map
                    (fun j => (j.user_id, j.cost))
                = (s.jobs.find? fun j => j.id == k).map
                    fun j => (j.user_id, j.cost)
              rw [find?_jobField_map _ k _ (fun j => by
                by_cases h : (j.id == jid) = true <;> simp [h])]
              rw [show (db_set_worker_status ((db_set_job_assigned
                  (db_set_worker_status s tNow w "busy") tNow jid w).1) tNow
                  w "idle").jobs = ((db_set_job_assigned
                  (db_set_worker_status s tNow w "busy") tNow jid w).1).jobs
                from db_set_worker_status_jobs _ tNow w _]
              rw [db_set_job_assigned_jobField]
              rw [show (db_set_worker_status s tNow w "busy").jobs = s.jobs
                from db_set_worker_status_jobs s tNow w "busy"]
          · show (((db_set_worker_status ((db_set_job_assigned
                  (db_set_worker_status s tNow w "busy") tNow jid w).1)
                  tNow w "idle").jobs.map fun j =>
                if j.id == jid then
                  { j with status := "queued", worker_id := none }
                else j).find? fun j => j.id == k).map
                  (fun j => (j.user_id, j.cost))
              = (s.jobs.find? fun j => j.id == k).map
                  fun j => (j.user_id, j.cost)
            rw [find?_jobField_map _ k _ (fun j => by
              by_cases h : (j.id == jid) = true <;> simp [h])]
            rw [show (db_set_worker_status ((db_set_job_assigned
                (db_set_worker_status s tNow w "busy") tNow jid w).1) tNow
                w "idle").jobs = ((db_set_job_assigned
                (db_set_worker_status s tNow w "busy") tNow jid w).1).jobs
              from db_set_worker_status_jobs _ tNow w _]
            rw [db_set_job_assigned_jobField]
            rw [show (db_set_worker_status s tNow w "busy").jobs = s.jobs
              from db_set_worker_status_jobs s tNow w "busy"]

theorem submit_job_validates (s : Store) (reg : Registry)
    (queue : List String) (tNow : ℚ) (sendOk : String → Bool)
    (fresh c : String) (hc : c ≠ "") (hclen : c.length ≤ 1000000) :
    submit_job s reg queue tNow sendOk fresh
        { user_id := none, code := some c, language := none,
          timeout_s := none }
      = submit_job_reserve s reg queue tNow sendOk fresh
          (sanitize_string c 1000000) "demo" "python" 60 := by
  unfold submit_job
  dsimp only [Option.getD]
  rw [if_neg hc, if_neg (by omega : ¬ (1000000 < c.length)),
    if_neg (by decide :
      ¬ (("python" : String) ∉ ["python", "javascript", "node", "bash"])),
    if_neg (by decide : ¬ ¬ validate_user_id "demo" = true)]
  rw [show sanitize_string "demo" 64 = "demo" from by decide]

theorem submit_job_reserve_success (s : Store) (reg : Registry)
    (queue : List String) (tNow : ℚ) (sendOk : String → Bool)
    (fresh code2 : String)
    (hbal : get_max_reserve (some 60)
      ≤ (ensure_user s.user_credits "demo" DEFAULT_INITIAL_BALANCE).2)
    (hfresh : validate_uuid fresh = true)
    (hnodup : (s.jobs.find? fun j => j.id == fresh) = none) :
    submit_job_reserve s reg queue tNow sendOk fresh code2 "demo" "python" 60
      = (dispatchLoop tNow sendOk (queue ++ [fresh])
          { s with
            user_credits := (deduct
              (ensure_user s.user_credits "demo" DEFAULT_INITIAL_BALANCE).1
              "demo" (get_max_reserve (some 60))).1,
            jobs := s.jobs ++ [mkNewJob fresh "demo" code2 "python" 60
              (get_max_reserve (some 60)) tNow] } reg [],
         SubmitResult.ok fresh "queued" (get_max_reserve (some 60))) := by
  have hminle : MIN_COST ≤ get_max_reserve (some 60) := (reserve_shape 60).2.1
  have hpos : (0 : ℚ) < get_max_reserve (some 60) :=
    lt_of_lt_of_le (by norm_num [MIN_COST]) hminle
  have hgb : getBal
      (ensure_user s.user_credits "demo" DEFAULT_INITIAL_BALANCE).1 "demo"
      = some ((ensure_user s.user_credits "demo" DEFAULT_INITIAL_BALANCE).2) :=
    ensure_getBal _ _ _
  obtain ⟨q, hqmem, hq1, hq2⟩ := getBal_exists_row _ _ _ hgb
  have hded : (deduct
      (ensure_user s.user_credits "demo" DEFAULT_INITIAL_BALANCE).1 "demo"
      (get_max_reserve (some 60))).2 = true :=
    (deduct_true_iff _ _ _ hpos).mpr ⟨q, hqmem, hq1, by rw [hq2]; exact hbal⟩
  have hgbal : get_balance
      (ensure_user s.user_credits "demo" DEFAULT_INITIAL_BALANCE).1 "demo"
      = (ensure_user s.user_credits "demo" DEFAULT_INITIAL_BALANCE).2 := by
    unfold get_balance; rw [hgb]; rfl
  unfold submit_job_reserve
  dsimp only
  rw [hgbal, if_neg (not_lt.mpr hbal), if_neg (by simp [hded]),
    if_neg (by simp [hfresh, hnodup])]

/-- **C10.** A `POST /jobs` body with valid code and no `user_id` field is
not rejected with 400: the submitter defaults to the literal `"demo"`,
the reserve (here the default-timeout reserve) is deducted from `"demo"`,
and the job row is created with `user_id = "demo"` and the reserved cost,
surviving the dispatcher run that submission triggers. -/
theorem C10_default_user_demo (s : Store) (reg : Registry)
    (queue : List String) (tNow : ℚ) (sendOk : String → Bool)
    (fresh c : String) (b reserved : ℚ)
    (hc : c ≠ "") (hclen : c.length ≤ 1000000)
    (hres : reserved = get_max_reserve (some 60))
    (hb : b = (ensure_user s.user_credits "demo" DEFAULT_INITIAL_BALANCE).2)
    (hbal : reserved ≤ b)
    (hfresh : validate_uuid fresh = true)
    (hnodup : (s.jobs.find? fun j => j.id == fresh) = none) :
    (submit_job s reg queue tNow sendOk fresh
        { user_id := none, code := some c, language := none,
          timeout_s := none }).2
      = SubmitResult.ok fresh "queued" reserved
    ∧ (((submit_job s reg queue tNow sendOk fresh
          { user_id := none, code := some c, language := none,
            timeout_s := none }).1.2.1.jobs.find?
          fun j => j.id == fresh).map fun j => (j.user_id, j.cost))
      = some ("demo", reserved)
    ∧ get_balance (submit_job s reg queue tNow sendOk fresh
        { user_id := none, code := some c, language := none,
          timeout_s := none }).1.2.1.user_credits "demo" = b - reserved := by
  subst hres hb
  have hminle : MIN_COST ≤ get_max_reserve (some 60) := (reserve_shape 60).2.1
  have hpos : (0 : ℚ) < get_max_reserve (some 60) :=
    lt_of_lt_of_le (by norm_num [MIN_COST]) hminle
  have hgb : getBal
      (ensure_user s.user_credits "demo" DEFAULT_INITIAL_BALANCE).1 "demo"
      = some ((ensure_user s.user_credits "demo" DEFAULT_INITIAL_BALANCE).2) :=
    ensure_getBal _ _ _
  have hdbal : getBal (deduct
      (ensure_user s.user_credits "demo" DEFAULT_INITIAL_BALANCE).1 "demo"
      (get_max_reserve (some 60))).1 "demo"
      = some ((ensure_user s.user_credits "demo" DEFAULT_INITIAL_BALANCE).2
          - get_max_reserve (some 60)) :=
    deduct_getBal _ _ _ _ hgb hbal hpos
  rw [submit_job_validates s reg queue tNow sendOk fresh c hc hclen,
    submit_job_reserve_success s reg queue tNow sendOk fresh
      (sanitize_string c 1000000) hbal hfresh hnodup]
  refine ⟨rfl, ?_, ?_⟩
  · rw [dispatchLoop_jobField]
    dsimp only
    rw [List.find?_append, hnodup]
    have hfind : ([mkNewJob fresh "demo" (sanitize_string c 1000000) "python"
        60 (get_max_reserve (some 60)) tNow].find? fun j => j.id == fresh)
        = some (mkNewJob fresh "demo" (sanitize_string c 1000000) "python" 60
            (get_max_reserve (some 60)) tNow) := by
      simp [mkNewJob]
    rw [Option.none_or, hfind]
    rw [show (Option.map (fun j => (j.user_id, j.cost))
        (some (mkNewJob fresh "demo" (sanitize_string c 1000000) "python" 60
          (get_max_reserve (some 60)) tNow)))
        = some ("demo", max 0 (get_max_reserve (some 60))) from rfl,
      max_eq_right (le_of_lt hpos)]
  · rw [dispatchLoop_credits]
    dsimp only
    unfold get_balance
    rw [hdbal]
    rfl

theorem get_max_reserve_sixty : get_max_reserve (some 60) = 6 := by
  show min MAX_COST
      (max MIN_COST (round4 (((60 : Int) : ℚ) * COST_PER_SECOND))) = 6
  rw [round4_exact _ 60000 (by norm_num [COST_PER_SECOND]),
    max_eq_right (by norm_num [MIN_COST, COST_PER_SECOND]),
    min_eq_right (by norm_num [MAX_COST, COST_PER_SECOND])]
  norm_num [COST_PER_SECOND]

/-- Witness for C10: submitting `print(1)` with no `user_id` against an
empty store charges `"demo"` 6 credits (default timeout 60 s) and files
the job under `"demo"`. -/
theorem C10_default_user_demo_witness :
    ("print(1)" : String) ≠ ""
    ∧ ("print(1)" : String).length ≤ 1000000
    ∧ (6 : ℚ) = get_max_reserve (some 60)
    ∧ (100 : ℚ) = (ensure_user exEmptyStore.user_credits "demo"
        DEFAULT_INITIAL_BALANCE).2
    ∧ (6 : ℚ) ≤ 100
    ∧ validate_uuid J1 = true
    ∧ (exEmptyStore.jobs.find? fun j => j.id == J1) = none
    ∧ ((submit_job exEmptyStore [] [] 0 (fun _ => true) J1
          { user_id := none, code := some "print(1)", language := none,
            timeout_s := none }).2 = SubmitResult.ok J1 "queued" 6
      ∧ (((submit_job exEmptyStore [] [] 0 (fun _ => true) J1
            { user_id := none, code := some "print(1)", language := none,
              timeout_s := none }).1.2.1.jobs.find?
            fun j => j.id == J1).map fun j => (j.user_id, j.cost))
        = some ("demo", 6)
      ∧ get_balance (submit_job exEmptyStore [] [] 0 (fun _ => true) J1
          { user_id := none, code := some "print(1)", language := none,
            timeout_s := none }).1.2.1.user_credits "demo" = 100 - 6) :=
  ⟨by decide, by decide, get_max_reserve_sixty.symm, rfl, by norm_num,
   by decide, rfl,
   C10_default_user_demo exEmptyStore [] [] 0 (fun _ => true) J1 "print(1)"
     100 6 (by decide) (by decide) get_max_reserve_sixty.symm rfl
     (by norm_num) (by decide) rfl⟩
